import Mathlib

/-!
# ProctAi teacher views: question batch form and exam creation page

A shallow embedding of the event handlers of
`frontend/src/views/teacher/components/AddQuestionForm.jsx` and
`frontend/src/views/teacher/CreateExamPage.jsx`.

React state hooks become fields of an explicit state record; a handler becomes a
function from the state captured by its closure to the state after its `set...`
calls, paired with the ordered list of externally visible effects (alerts,
toasts, network calls).  An awaited network call is resolved by a reply
function supplied by the environment: `Except.ok res` is a fulfilled promise,
`Except.error err` a rejected one.
-/

namespace ProctAi

/-! ## JavaScript values -/

/-- JavaScript numbers: `NaN`, the two infinities, and the finite values (all
finite doubles are rationals; `-0` is identified with `0`). -/
inductive JsNum where
  | nan
  | infinity (negative : Bool)
  | finite (q : ℚ)
  deriving DecidableEq

/-- JavaScript values as they occur in server replies and rejection values. -/
inductive JsVal where
  | undefined
  | null
  | bool (b : Bool)
  | num (n : JsNum)
  | str (s : String)
  | obj (fields : List (String × JsVal))

namespace JsVal

/-- ToBoolean: `undefined`, `null`, `false`, `0`, `NaN` and `''` are falsy. -/
def truthy : JsVal → Bool
  | undefined => false
  | null => false
  | bool b => b
  | num .nan => false
  | num (.infinity _) => true
  | num (.finite q) => q != 0
  | str s => s != ""
  | obj _ => true

/-- Property read `v.k` for the keys `data`, `message` and `error`: a
`TypeError` (here `Except.error ()`) on `undefined` and `null`, the own field
of an object when it has one, `undefined` otherwise (none of these keys is
defined by a primitive wrapper). -/
def member (v : JsVal) (k : String) : Except Unit JsVal :=
  match v with
  | undefined => .error ()
  | null => .error ()
  | obj fields => .ok ((fields.lookup k).getD undefined)
  | _ => .ok undefined

/-- Optional chaining `v?.k`: `undefined` when `v` is `undefined` or `null`,
the property read otherwise. -/
def optMember (v : JsVal) (k : String) : JsVal :=
  match v with
  | obj fields => (fields.lookup k).getD undefined
  | _ => undefined

end JsVal

/-- WhiteSpace and LineTerminator code points of ECMAScript, the characters
removed by `String.prototype.trim` and matched by the regular expression `\s`. -/
def isJsWhiteSpace (c : Char) : Bool :=
  c.val = 0x9 || c.val = 0xA || c.val = 0xB || c.val = 0xC || c.val = 0xD ||
  c.val = 0x20 || c.val = 0xA0 || c.val = 0x1680 ||
  (0x2000 ≤ c.val && c.val ≤ 0x200A) ||
  c.val = 0x2028 || c.val = 0x2029 || c.val = 0x202F || c.val = 0x205F ||
  c.val = 0x3000 || c.val = 0xFEFF

/-- The method `String.prototype.trim`. -/
def jsTrim (s : String) : String :=
  ⟨((s.data.dropWhile isJsWhiteSpace).reverse.dropWhile isJsWhiteSpace).reverse⟩

/-! ## AddQuestionForm -/

/-- One entry of the `options` array sent to the server; `isCorrect` is the
value read from `correctOptions[index]`, `none` standing for `undefined`. -/
structure QuestionOption where
  optionText : String
  isCorrect : Option Bool
  deriving DecidableEq

/-- The object `newQuestionObj` passed to `createQuestion`. -/
structure QuestionPayload where
  question : String
  options : List QuestionOption
  examId : String
  deriving DecidableEq

/-- The `useState` cells of `AddQuestionForm`.  A slot of `correctOptions` holds
a boolean or is empty (`none`, read back as `undefined`). -/
structure FormState where
  questions : List JsVal
  newQuestion : String
  newOptions : List String
  correctOptions : List (Option Bool)
  selectedExamId : String

/-- The state on mount. -/
def initialState : FormState :=
  { questions := []
    newQuestion := ""
    newOptions := ["", "", "", ""]
    correctOptions := [some false, some false, some false, some false]
    selectedExamId := "" }

/-- Effects of the handlers of `AddQuestionForm`, in program order. -/
inductive QEffect where
  | swalError (text : String)
  | createQuestion (payload : QuestionPayload)
  | toastSuccess (text : String)
  | toastInfo (text : String)

/-- The payloads of the `createQuestion` calls of an effect trace, in order. -/
def createQuestionCalls : List QEffect → List QuestionPayload
  | [] => []
  | .createQuestion p :: rest => p :: createQuestionCalls rest
  | _ :: rest => createQuestionCalls rest

/-- Array read `xs[index]`: `undefined` (`none`) for an empty slot or an index
outside the array. -/
def readSlot (xs : List (Option Bool)) (index : Nat) : Option Bool :=
  (xs.get? index).join

/-- The callback of `newOptions.map((option, index) => ...)` applied along the
array, `index` counting from `start`. -/
def mapOptions (correctOptions : List (Option Bool)) (start : Nat) :
    List String → List QuestionOption
  | [] => []
  | option :: rest =>
      { optionText := option, isCorrect := readSlot correctOptions start } ::
        mapOptions correctOptions (start + 1) rest

/-- The object literal `newQuestionObj` of `handleAddQuestion`. -/
def newQuestionObj (s : FormState) : QuestionPayload :=
  { question := s.newQuestion
    options := mapOptions s.correctOptions 0 s.newOptions
    examId := s.selectedExamId }

/-- The handler `handleAddQuestion`. -/
def handleAddQuestion (createQuestion : QuestionPayload → Except JsVal JsVal)
    (s : FormState) : FormState × List QEffect :=
  if jsTrim s.newQuestion = "" || s.newOptions.any (fun option => jsTrim option = "") then
    (s, [.swalError "Please fill out the question and all options."])
  else
    match createQuestion (newQuestionObj s) with
    | .ok res =>
        ({ s with
            questions := s.questions ++ [res]
            newQuestion := ""
            newOptions := ["", "", "", ""]
            correctOptions := [some false, some false, some false, some false] },
          .createQuestion (newQuestionObj s) ::
            (if res.truthy then [.toastSuccess "Question added successfully!"] else []))
    | .error _ =>
        (s, [.createQuestion (newQuestionObj s),
              .swalError "Failed to create question. Please try again."])

/-- The handler `handleSubmitQuestions`. -/
def handleSubmitQuestions (s : FormState) : FormState × List QEffect :=
  ({ s with
      questions := []
      newQuestion := ""
      newOptions := ["", "", "", ""]
      correctOptions := [some false, some false, some false, some false] },
    [.toastInfo "Questions submitted successfully!"])

/-- A click on the "Submit All" button, rendered with
`onClick={handleSubmitQuestions}` and `disabled={questions.length === 0}`: a
disabled button dispatches no click. -/
def submitAllClick (s : FormState) : FormState × List QEffect :=
  if s.questions.length = 0 then (s, []) else handleSubmitQuestions s

/-- Array write `xs[index] = v` on a copy of `xs`: in range it replaces the
slot, past the end it extends the array, leaving the skipped slots empty. -/
def writeSlot (xs : List (Option Bool)) (index : Nat) (v : Bool) : List (Option Bool) :=
  if index < xs.length then xs.set index (some v)
  else xs ++ List.replicate (index - xs.length) none ++ [some v]

/-- Logical not of an array read: `!undefined` is `true`. -/
def jsNot : Option Bool → Bool
  | some b => !b
  | none => true

/-- The handler `handleOptionChange(index)`. -/
def handleOptionChange (index : Nat) (s : FormState) : FormState :=
  { s with correctOptions := writeSlot s.correctOptions index (jsNot (readSlot s.correctOptions index)) }

/-- The `onChange` callback of the text field of option `index`, an index of
`newOptions.map`, hence inside the array. -/
def changeOptionText (index : Nat) (value : String) (s : FormState) : FormState :=
  { s with newOptions := s.newOptions.set index value }

/-- The `onChange` callback of the question text field. -/
def changeQuestionText (value : String) (s : FormState) : FormState :=
  { s with newQuestion := value }

/-- An entry of the list returned by `useGetExamsQuery`. -/
structure Exam where
  examId : String
  examName : String
  deriving DecidableEq

/-- The body of `useEffect(() => {...}, [examsData])`.  React runs it after the
first render and after every render in which `examsData` is a value different
from the one of the previous render; `none` is `undefined` (not loaded). -/
def defaultExamEffect (examsData : Option (List Exam)) (s : FormState) : FormState :=
  match examsData with
  | some (first :: _) => { s with selectedExamId := first.examId }
  | _ => s

/-- The `onChange` callback of the exam `Select`. -/
def selectExam (examId : String) (s : FormState) : FormState :=
  { s with selectedExamId := examId }

/-- User and environment events of the mounted form.  `examsData d` is a render
with a new value `d` of the query result, after which the effect runs. -/
inductive Event where
  | changeQuestion (value : String)
  | changeOption (index : Nat) (value : String)
  | toggleCorrect (index : Nat)
  | addQuestion (createQuestion : QuestionPayload → Except JsVal JsVal)
  | submitAll
  | selectExam (examId : String)
  | examsData (d : Option (List Exam))

/-- One event applied to the form state.  The option controls exist only for
the indices of `newOptions`. -/
def step (s : FormState) : Event → FormState
  | .changeQuestion value => changeQuestionText value s
  | .changeOption index value =>
      if index < s.newOptions.length then changeOptionText index value s else s
  | .toggleCorrect index =>
      if index < s.newOptions.length then handleOptionChange index s else s
  | .addQuestion createQuestion => (handleAddQuestion createQuestion s).1
  | .submitAll => (submitAllClick s).1
  | .selectExam examId => selectExam examId s
  | .examsData d => defaultExamEffect d s

/-- A sequence of events applied from left to right. -/
def run (s : FormState) (events : List Event) : FormState :=
  events.foldl step s

/-! ## CreateExamPage -/

/-- A value of a numeric form field: the typed text, or the number formik
stores for an input of type `number`. -/
inductive FieldValue where
  | text (s : String)
  | number (n : JsNum)
  deriving DecidableEq

/-- The formik `values` object of the exam form. -/
structure ExamDraft where
  examName : String
  totalQuestions : FieldValue
  duration : FieldValue
  liveDate : String
  deadDate : String
  deriving DecidableEq

/-- The constant `initialExamValues`. -/
def initialExamValues : ExamDraft :=
  { examName := ""
    totalQuestions := .text ""
    duration := .text ""
    liveDate := ""
    deadDate := "" }

/-- The host conversions used by the yup casts: unary plus on a string, and the
date parser (`none` when the result is `NaN`), which returns epoch
milliseconds. -/
structure Host where
  toNumber : String → JsNum
  parseDate : String → Option Int

namespace JsNum

/-- The test `Number.isInteger`. -/
def isInteger : JsNum → Bool
  | finite q => q.den = 1
  | _ => false

/-- The comparison `value > bound`. -/
def gt (value : JsNum) (bound : ℚ) : Bool :=
  match value with
  | nan => false
  | infinity negative => !negative
  | finite q => bound < q

/-- The comparison `value >= bound`. -/
def ge (value : JsNum) (bound : ℚ) : Bool :=
  match value with
  | nan => false
  | infinity negative => !negative
  | finite q => bound ≤ q

end JsNum

/-- A yup schema over raw values `ρ` with cast values `α`: the transform
followed by the type check (`none` when the cast value is not of the schema
type), the message of the type error, the presence check used by `required`,
the message of `required` when it was called, and the tests added by the
chained methods with their messages. -/
structure Schema (ρ α : Type) where
  cast : ρ → Option α
  typeErrorMsg : String
  present : α → Bool
  requiredMsg : Option String
  tests : List ((α → Bool) × String)

namespace Schema

/-- The method `typeError(message)`. -/
def typeError {ρ α : Type} (sch : Schema ρ α) (message : String) : Schema ρ α :=
  { sch with typeErrorMsg := message }

/-- The method `required(message)`. -/
def required {ρ α : Type} (sch : Schema ρ α) (message : String) : Schema ρ α :=
  { sch with requiredMsg := some message }

/-- The method `integer(message)` of a number schema. -/
def integer {ρ : Type} (sch : Schema ρ JsNum) (message : String) : Schema ρ JsNum :=
  { sch with tests := sch.tests ++ [(JsNum.isInteger, message)] }

/-- The method `positive(message)` of a number schema, `moreThan(0)`. -/
def positive {ρ : Type} (sch : Schema ρ JsNum) (message : String) : Schema ρ JsNum :=
  { sch with tests := sch.tests ++ [(fun value => value.gt 0, message)] }

/-- The method `min(bound, message)` of a number schema. -/
def min {ρ : Type} (sch : Schema ρ JsNum) (bound : ℚ) (message : String) : Schema ρ JsNum :=
  { sch with tests := sch.tests ++ [(fun value => value.ge bound, message)] }

/-- Validation of one field with `abortEarly: false`.  An `undefined` value
(`none`) skips the casts and every test but `required`; a value that fails the
type check reports the type error alone; otherwise every failing test reports
its message. -/
def validate {ρ α : Type} (sch : Schema ρ α) : Option ρ → List String
  | none => sch.requiredMsg.toList
  | some raw =>
      match sch.cast raw with
      | none => [sch.typeErrorMsg]
      | some value =>
          (match sch.requiredMsg with
            | some message => if sch.present value then [] else [message]
            | none => []) ++
          (sch.tests.filter (fun t => !t.1 value)).map Prod.snd

end Schema

/-- The schema `yup.string()`. -/
def yupString : Schema String String :=
  { cast := some
    typeErrorMsg := "must be a string type"
    present := fun value => value != ""
    requiredMsg := none
    tests := [] }

/-- The transform of `yup.number()`: a number is kept; a string loses its
white space, becomes `NaN` when nothing is left and is converted by unary plus
otherwise. -/
def yupNumberCast (h : Host) : FieldValue → JsNum
  | .number n => n
  | .text s =>
      let parsed : String := ⟨s.data.filter (fun c => !isJsWhiteSpace c)⟩
      if parsed = "" then .nan else h.toNumber parsed

/-- The schema `yup.number()`; its type check rejects `NaN`. -/
def yupNumber (h : Host) : Schema FieldValue JsNum :=
  { cast := fun raw =>
      match yupNumberCast h raw with
      | .nan => none
      | value => some value
    typeErrorMsg := "must be a number type"
    present := fun _ => true
    requiredMsg := none
    tests := [] }

/-- The schema `yup.date()`; its type check rejects an invalid date. -/
def yupDate (h : Host) : Schema String Int :=
  { cast := h.parseDate
    typeErrorMsg := "must be a date type"
    present := fun _ => true
    requiredMsg := none
    tests := [] }

/-- The conversion of formik before validation: an empty string is passed to
the schema as `undefined`. -/
def prepareText (s : String) : Option String :=
  if s = "" then none else some s

/-- The same conversion for a numeric field. -/
def prepareField (v : FieldValue) : Option FieldValue :=
  if v = .text "" then none else some v

/-- The field `examName` of `examValidationSchema`. -/
def examNameSchema : Schema String String :=
  yupString.required "Exam Name is required"

/-- The field `totalQuestions` of `examValidationSchema`. -/
def totalQuestionsSchema (h : Host) : Schema FieldValue JsNum :=
  ((((yupNumber h).typeError "Total Number of Questions must be a number").integer
    "Total Number of Questions must be an integer").positive
    "Total Number of Questions must be positive").required
    "Total Number of Questions is required"

/-- The field `duration` of `examValidationSchema`. -/
def durationSchema (h : Host) : Schema FieldValue JsNum :=
  ((((yupNumber h).typeError "Exam Duration must be a number").integer
    "Exam Duration must be an integer").min 1
    "Exam Duration must be at least 1 minute").required
    "Exam Duration is required"

/-- The field `liveDate` of `examValidationSchema`. -/
def liveDateSchema (h : Host) : Schema String Int :=
  (yupDate h).required "Live Date and Time is required"

/-- The field `deadDate` of `examValidationSchema`. -/
def deadDateSchema (h : Host) : Schema String Int :=
  (yupDate h).required "Dead Date and Time is required"

/-- The object schema `examValidationSchema` applied to the formik values: the
failures of every field, each with its path. -/
def examValidationSchema (h : Host) (values : ExamDraft) : List (String × String) :=
  (examNameSchema.validate (prepareText values.examName)).map (Prod.mk "examName") ++
  ((totalQuestionsSchema h).validate (prepareField values.totalQuestions)).map
    (Prod.mk "totalQuestions") ++
  ((durationSchema h).validate (prepareField values.duration)).map (Prod.mk "duration") ++
  ((liveDateSchema h).validate (prepareText values.liveDate)).map (Prod.mk "liveDate") ++
  ((deadDateSchema h).validate (prepareText values.deadDate)).map (Prod.mk "deadDate")

/-- Effects of the exam page, in program order.  `uncaughtTypeError` is the
exception raised inside the `catch` block when `err.error` is read from
`undefined` or `null`. -/
inductive ExamEffect where
  | createExam (values : ExamDraft)
  | toastSuccess (text : String)
  | toastError (content : JsVal)
  | uncaughtTypeError
  | formErrors (errors : List (String × String))

/-- The payloads of the `createExam` calls of an effect trace, in order. -/
def createExamCalls : List ExamEffect → List ExamDraft
  | [] => []
  | .createExam values :: rest => values :: createExamCalls rest
  | _ :: rest => createExamCalls rest

/-- The argument of `toast.error`, the expression
`err?.data?.message || err.error`. -/
def errorContent (err : JsVal) : Except Unit JsVal :=
  let message := (err.optMember "data").optMember "message"
  if message.truthy then .ok message else err.member "error"

/-- The handler `handleSubmit(values)`: the formik values after it and its
effects.  `formik.resetForm()` restores `initialExamValues`. -/
def handleSubmit (createExam : ExamDraft → Except JsVal JsVal) (values : ExamDraft) :
    ExamDraft × List ExamEffect :=
  match createExam values with
  | .ok _ => (initialExamValues, [.createExam values, .toastSuccess "Exam Created successfully"])
  | .error err =>
      match errorContent err with
      | .ok content => (values, [.createExam values, .toastError content])
      | .error _ => (values, [.createExam values, .uncaughtTypeError])

/-- The conversion `yupToFormErrors` of formik: of the failures reported by the
schema, the first one of each path is stored. -/
def yupToFormErrors : List (String × String) → List (String × String)
  | [] => []
  | (path, message) :: rest =>
      (path, message) :: (yupToFormErrors rest).filter (fun failure => failure.1 != path)

/-- Modelled from the spec: the form component `ExamForm`, which binds the
submit control of the page, is missing.  Following the contract `submit(draft)`
of the spec (validation runs before the network call; with all fields valid the
create-exam operation is invoked with the draft), the submission goes through
formik as configured by `useFormik`: the values are validated against
`validationSchema`, and `onSubmit`, which calls `handleSubmit(values)`, runs
only when there is no failure; otherwise the failures are stored as the form
errors. -/
def formikSubmit (h : Host) (createExam : ExamDraft → Except JsVal JsVal)
    (values : ExamDraft) : ExamDraft × List ExamEffect :=
  if (examValidationSchema h values).isEmpty then handleSubmit createExam values
  else (values, [.formErrors (yupToFormErrors (examValidationSchema h values))])

/-! ## Example states -/

/-- The draft of the scenario "2+2=?" with the second option marked correct. -/
def arithmeticDraft : FormState :=
  { questions := []
    newQuestion := "2+2=?"
    newOptions := ["3", "4", "5", "6"]
    correctOptions := [some false, some true, some false, some false]
    selectedExamId := "E1" }

/-- A draft with an empty fourth option. -/
def incompleteDraft : FormState :=
  { questions := [JsVal.str "earlier"]
    newQuestion := "2+2=?"
    newOptions := ["3", "4", "5", ""]
    correctOptions := [some false, some true, some false, some false]
    selectedExamId := "E1" }

/-- A partly typed draft with no pending question. -/
def typedDraftNoPending : FormState :=
  { questions := []
    newQuestion := "Define a monad"
    newOptions := ["a", "", "", ""]
    correctOptions := [some true, some false, some false, some false]
    selectedExamId := "E1" }

/-- A state with one pending question and a new draft in progress. -/
def onePending : FormState :=
  { questions := [JsVal.obj [("question", JsVal.str "2+2=?")]]
    newQuestion := "3+3=?"
    newOptions := ["6", "", "", ""]
    correctOptions := [some true, some false, some false, some false]
    selectedExamId := "E1" }

/-- A server reply that accepts every question and returns a record. -/
def acceptAll : QuestionPayload → Except JsVal JsVal :=
  fun p => .ok (JsVal.obj [("question", JsVal.str p.question), ("examId", JsVal.str p.examId)])

/-- A server reply that rejects every question. -/
def rejectAll : QuestionPayload → Except JsVal JsVal :=
  fun _ => .error (JsVal.obj [("status", JsVal.num (.finite 500))])

/-- Three exams as returned by the exam list query. -/
def examE1 : Exam := { examId := "E1", examName := "Midterm" }

/-- The second exam of the examples. -/
def examE2 : Exam := { examId := "E2", examName := "Final" }

/-- The third exam of the examples. -/
def examE3 : Exam := { examId := "E3", examName := "Quiz" }

/-- The value of a string of decimal digits, `none` for any other string. -/
def decimalValue : List Char → Option Nat
  | [] => none
  | cs => cs.foldl
      (fun acc c => acc.bind (fun n => if c.isDigit then some (10 * n + (c.toNat - 48)) else none))
      (some 0)

/-- A host for the examples: it converts strings of decimal digits to numbers
and accepts as dates the strings of the shape `YYYY-MM-DDTHH:MM` (the epoch
value, which no test reads, is not computed). -/
def sampleHost : Host :=
  { toNumber := fun s =>
      match decimalValue s.data with
      | some n => .finite n
      | none => .nan
    parseDate := fun s =>
      match s.data with
      | [y1, y2, y3, y4, '-', m1, m2, '-', d1, d2, 'T', h1, h2, ':', n1, n2] =>
          if [y1, y2, y3, y4, m1, m2, d1, d2, h1, h2, n1, n2].all Char.isDigit then some 0
          else none
      | _ => none }

/-- The draft of the scenario "Midterm". -/
def midtermDraft : ExamDraft :=
  { examName := "Midterm"
    totalQuestions := .text "10"
    duration := .number (.finite 60)
    liveDate := "2025-01-01T09:00"
    deadDate := "2025-01-02T09:00" }

/-- A rejection value of an HTTP 400 response whose body has no `message`. -/
def errorWithoutMessage : JsVal :=
  JsVal.obj [("status", JsVal.num (.finite 400)),
    ("data", JsVal.obj [("errors", JsVal.str "totalQuestions: Cast to Number failed")])]

/-- A rejection value whose body carries a `message`. -/
def errorWithMessage : JsVal :=
  JsVal.obj [("status", JsVal.num (.finite 401)),
    ("data", JsVal.obj [("message", JsVal.str "Not Authorized, no token")])]

/-- The shape of the option arrays of the form: four option texts and four
correctness flags, every flag slot holding a boolean. -/
def FourOptions (s : FormState) : Prop :=
  s.newOptions.length = 4 ∧ s.correctOptions.length = 4 ∧
    ∀ slot ∈ s.correctOptions, slot.isSome = true

/-! ## Number conversion of ECMAScript -/

namespace JsNum

/-- Unary minus. -/
def neg : JsNum → JsNum
  | nan => nan
  | infinity negative => infinity (!negative)
  | finite q => finite (-q)

end JsNum

/-- The number of binary digits of `n`, computed in at most `fuel` halvings. -/
def bitLength : Nat → Nat → Nat
  | 0, _ => 0
  | fuel + 1, n => if n = 0 then 0 else bitLength fuel (n / 2) + 1

/-- The rational `m * 2 ^ x`. -/
def binaryValue (m : Nat) (x : Int) : ℚ :=
  if 0 ≤ x then ((m * 2 ^ x.toNat : Nat) : ℚ) else mkRat m (2 ^ (-x).toNat)

/-- The Number value of a rational: the nearest binary64 value, ties going to
the even significand, an infinity from `2 ^ 1024` on.  With `e` the binary
exponent of `q`, not below `-1022`, the significand is `q / 2 ^ (e - 52)`
rounded to an integer. -/
def roundToDouble (q : ℚ) : JsNum :=
  let n := q.num.natAbs
  let d := q.den
  if n = 0 then .finite 0
  else
    let e0 : Int := (bitLength n n : Int) - (bitLength d d : Int)
    let reached : Bool :=
      if 0 ≤ e0 then decide (2 ^ e0.toNat * d ≤ n) else decide (d ≤ n * 2 ^ (-e0).toNat)
    let e : Int := if reached then e0 else e0 - 1
    let x : Int := max e (-1022) - 52
    let num : Nat := if 0 ≤ x then n else n * 2 ^ (-x).toNat
    let den : Nat := if 0 ≤ x then d * 2 ^ x.toNat else d
    let f := num / den
    let r :=
      if 2 * (num % den) < den then f
      else if den < 2 * (num % den) then f + 1
      else if f % 2 = 0 then f else f + 1
    if 0 ≤ x ∧ 2 ^ 1024 ≤ r * 2 ^ x.toNat then .infinity (decide (q < 0))
    else .finite (if q < 0 then -binaryValue r x else binaryValue r x)

/-- The value of a character as a digit of the given radix. -/
def radixDigit (radix : Nat) (c : Char) : Option Nat :=
  let value : Option Nat :=
    if 48 ≤ c.toNat ∧ c.toNat ≤ 57 then some (c.toNat - 48)
    else if 97 ≤ c.toNat ∧ c.toNat ≤ 102 then some (c.toNat - 87)
    else if 65 ≤ c.toNat ∧ c.toNat ≤ 70 then some (c.toNat - 55)
    else none
  value.bind (fun d => if d < radix then some d else none)

/-- The value of a possibly empty string of digits of the given radix. -/
def digitsIn (radix : Nat) (cs : List Char) : Option Nat :=
  cs.foldl
    (fun acc c => acc.bind (fun n => (radixDigit radix c).map (fun d => radix * n + d)))
    (some 0)

/-- The value of a non-empty string of digits of the given radix. -/
def someDigitsIn (radix : Nat) (cs : List Char) : Option Nat :=
  if cs = [] then none else digitsIn radix cs

/-- The rational `m * 10 ^ e`. -/
def decimalScale (m : Nat) (e : Int) : ℚ :=
  if 0 ≤ e then ((m * 10 ^ e.toNat : Nat) : ℚ) else mkRat m (10 ^ (-e).toNat)

/-- The grammar `StrUnsignedDecimalLiteral` with its Number value: `Infinity`,
or decimal digits with an optional fraction and an optional exponent; `none`
for a string outside the grammar. -/
def unsignedDecimal (cs : List Char) : Option JsNum :=
  if cs = "Infinity".data then some (.infinity false)
  else
    let mantissa := cs.takeWhile (fun c => c != 'e' && c != 'E')
    let exponent : Option Int :=
      match cs.dropWhile (fun c => c != 'e' && c != 'E') with
      | [] => some 0
      | _ :: '+' :: ds => (someDigitsIn 10 ds).map Int.ofNat
      | _ :: '-' :: ds => (someDigitsIn 10 ds).map (fun n => -Int.ofNat n)
      | _ :: ds => (someDigitsIn 10 ds).map Int.ofNat
    let whole := mantissa.takeWhile (fun c => c != '.')
    let digits : Option (Nat × Nat) :=
      match mantissa.dropWhile (fun c => c != '.') with
      | [] => (someDigitsIn 10 whole).map (fun m => (m, 0))
      | _ :: fraction =>
          if whole = [] ∧ fraction = [] then none
          else (digitsIn 10 (whole ++ fraction)).map (fun m => (m, fraction.length))
    match digits, exponent with
    | some (m, k), some e => some (roundToDouble (decimalScale m (e - k)))
    | _, _ => none

/-- The grammar `NonDecimalIntegerLiteral` with its Number value: `0x`, `0o`
or `0b` followed by digits of that radix. -/
def nonDecimalInteger : List Char → Option JsNum
  | '0' :: marker :: ds =>
      let radix : Option Nat :=
        if marker = 'x' ∨ marker = 'X' then some 16
        else if marker = 'o' ∨ marker = 'O' then some 8
        else if marker = 'b' ∨ marker = 'B' then some 2
        else none
      radix.bind (fun r => (someDigitsIn r ds).map (fun n => roundToDouble n))
  | _ => none

/-- The abstract operation StringToNumber of ECMAScript, which is `Number(s)`
and unary plus on a string: white space at both ends is ignored, the empty
string is `0`, a string outside the grammar `StringNumericLiteral` is `NaN`. -/
def stringToNumber (s : String) : JsNum :=
  let cs := (jsTrim s).data
  if cs = [] then .finite 0
  else
    match nonDecimalInteger cs with
    | some n => n
    | none =>
        (match cs with
          | '+' :: rest => unsignedDecimal rest
          | '-' :: rest => (unsignedDecimal rest).map JsNum.neg
          | _ => unsignedDecimal cs).getD .nan

/-- The numeric value `Number(v)` of a field value. -/
def numberValue : FieldValue → JsNum
  | .number n => n
  | .text s => stringToNumber s

/-- The field value with every white space character removed from a typed
text. -/
def withoutWhiteSpace : FieldValue → FieldValue
  | .number n => .number n
  | .text s => .text ⟨s.data.filter (fun c => !isJsWhiteSpace c)⟩

/-- The host whose unary plus is the conversion of ECMAScript, with a given
date parser. -/
def ecmaHost (parseDate : String → Option Int) : Host :=
  { toNumber := stringToNumber
    parseDate := parseDate }

/-- The draft of the scenario "Midterm" with `1 0` typed as the number of
questions. -/
def spacedDraft : ExamDraft :=
  { examName := "Midterm"
    totalQuestions := .text "1 0"
    duration := .text "60"
    liveDate := "2025-01-01T09:00"
    deadDate := "2025-01-02T09:00" }

/-- The draft of the scenario "Midterm" with every field typed as text. -/
def typedMidtermDraft : ExamDraft :=
  { examName := "Midterm"
    totalQuestions := .text "10"
    duration := .text "60"
    liveDate := "2025-01-01T09:00"
    deadDate := "2025-01-02T09:00" }

/-! ## Lemmas on `handleAddQuestion` -/

theorem jsTrim_empty : jsTrim "" = "" := by decide

theorem handleAddQuestion_invalid (createQuestion : QuestionPayload → Except JsVal JsVal)
    (s : FormState)
    (h : jsTrim s.newQuestion = "" ∨ ∃ o ∈ s.newOptions, jsTrim o = "") :
    handleAddQuestion createQuestion s =
      (s, [.swalError "Please fill out the question and all options."]) := by
  unfold handleAddQuestion
  rw [if_pos]
  rcases h with h | ⟨o, ho, h⟩
  · simp [h]
  · simp only [Bool.or_eq_true, decide_eq_true_eq, List.any_eq_true]
    exact Or.inr ⟨o, ho, h⟩

theorem handleAddQuestion_valid (createQuestion : QuestionPayload → Except JsVal JsVal)
    (s : FormState)
    (hq : jsTrim s.newQuestion ≠ "") (ho : ∀ o ∈ s.newOptions, jsTrim o ≠ "") :
    handleAddQuestion createQuestion s =
      match createQuestion (newQuestionObj s) with
      | .ok res =>
          ({ s with
              questions := s.questions ++ [res]
              newQuestion := ""
              newOptions := ["", "", "", ""]
              correctOptions := [some false, some false, some false, some false] },
            .createQuestion (newQuestionObj s) ::
              (if res.truthy then [.toastSuccess "Question added successfully!"] else []))
      | .error _ =>
          (s, [.createQuestion (newQuestionObj s),
                .swalError "Failed to create question. Please try again."]) := by
  unfold handleAddQuestion
  rw [if_neg]
  simp only [Bool.or_eq_true, decide_eq_true_eq, List.any_eq_true, not_or, not_exists, not_and]
  exact ⟨hq, ho⟩

theorem validity_cases (s : FormState) :
    (jsTrim s.newQuestion = "" ∨ ∃ o ∈ s.newOptions, jsTrim o = "") ∨
      (jsTrim s.newQuestion ≠ "" ∧ ∀ o ∈ s.newOptions, jsTrim o ≠ "") := by
  by_cases hq : jsTrim s.newQuestion = ""
  · exact Or.inl (Or.inl hq)
  · by_cases ho : ∃ o ∈ s.newOptions, jsTrim o = ""
    · exact Or.inl (Or.inr ho)
    · refine Or.inr ⟨hq, fun o hmem heq => ho ⟨o, hmem, heq⟩⟩

theorem createQuestionCalls_toast (b : Bool) :
    createQuestionCalls (if b = true then [QEffect.toastSuccess "Question added successfully!"]
      else []) = [] := by
  cases b <;> rfl

theorem createQuestionCalls_handleAddQuestion_valid
    (createQuestion : QuestionPayload → Except JsVal JsVal) (s : FormState)
    (hq : jsTrim s.newQuestion ≠ "") (ho : ∀ o ∈ s.newOptions, jsTrim o ≠ "") :
    createQuestionCalls (handleAddQuestion createQuestion s).2 = [newQuestionObj s] := by
  rw [handleAddQuestion_valid createQuestion s hq ho]
  cases createQuestion (newQuestionObj s) with
  | ok res => simp [createQuestionCalls, createQuestionCalls_toast]
  | error err => simp [createQuestionCalls]

theorem mem_createQuestionCalls (t : List QEffect) (p : QuestionPayload) :
    p ∈ createQuestionCalls t ↔ QEffect.createQuestion p ∈ t := by
  induction t with
  | nil => simp [createQuestionCalls]
  | cons e rest ih =>
      cases e <;> simp [createQuestionCalls, ih]

theorem mapOptions_optionText (flags : List (Option Bool)) (texts : List String) (start : Nat) :
    (mapOptions flags start texts).map QuestionOption.optionText = texts := by
  induction texts generalizing start with
  | nil => rfl
  | cons t rest ih => simp [mapOptions, ih]

theorem mapOptions_isCorrect (flags : List (Option Bool)) (texts : List String) (start : Nat) :
    (mapOptions flags start texts).map QuestionOption.isCorrect =
      (List.range texts.length).map (fun i => readSlot flags (start + i)) := by
  induction texts generalizing start with
  | nil => rfl
  | cons t rest ih =>
      simp only [mapOptions, List.map_cons, List.length_cons, List.range_succ_eq_map, ih,
        List.map_map, Nat.add_zero]
      congr 1
      apply List.map_congr_left
      intro i _
      simp only [Function.comp]
      congr 1
      omega

theorem map_readSlot_range (flags : List (Option Bool)) :
    (List.range flags.length).map (fun i => readSlot flags (0 + i)) = flags := by
  apply List.ext_getElem
  · simp
  · intro i h1 h2
    simp [readSlot, List.getElem?_eq_getElem h2]

/-! ## Claims on `AddQuestionForm` -/

/-- C1: when the question text is empty or one of the option texts is empty,
`handleAddQuestion` performs no `createQuestion` call. -/
theorem addQuestion_empty_field_no_network_call
    (createQuestion : QuestionPayload → Except JsVal JsVal) (s : FormState)
    (h : s.newQuestion = "" ∨ "" ∈ s.newOptions) :
    createQuestionCalls (handleAddQuestion createQuestion s).2 = [] ∧
      ∀ p, QEffect.createQuestion p ∉ (handleAddQuestion createQuestion s).2 := by
  have hinv : jsTrim s.newQuestion = "" ∨ ∃ o ∈ s.newOptions, jsTrim o = "" := by
    rcases h with h | h
    · exact Or.inl (by rw [h]; exact jsTrim_empty)
    · exact Or.inr ⟨"", h, jsTrim_empty⟩
  rw [handleAddQuestion_invalid createQuestion s hinv]
  refine ⟨rfl, fun p hp => ?_⟩
  simp at hp

theorem addQuestion_empty_field_no_network_call_witness :
    (incompleteDraft.newQuestion = "" ∨ "" ∈ incompleteDraft.newOptions) ∧
      createQuestionCalls (handleAddQuestion acceptAll incompleteDraft).2 = [] ∧
      ∀ p, QEffect.createQuestion p ∉ (handleAddQuestion acceptAll incompleteDraft).2 :=
  ⟨Or.inr (by decide),
    addQuestion_empty_field_no_network_call acceptAll incompleteDraft (Or.inr (by decide))⟩

/-- C2: when local validation passes and `createQuestion` resolves with `res`,
the pending list becomes the previous list with `res` appended at the end, the
question text and the four option texts are reset to the empty string, the four
flags to `false`, and the selected exam id is kept. -/
theorem addQuestion_success_appends_and_resets
    (createQuestion : QuestionPayload → Except JsVal JsVal) (s : FormState) (res : JsVal)
    (hq : jsTrim s.newQuestion ≠ "") (ho : ∀ o ∈ s.newOptions, jsTrim o ≠ "")
    (hres : createQuestion (newQuestionObj s) = .ok res) :
    (handleAddQuestion createQuestion s).1.questions = s.questions ++ [res] ∧
      (handleAddQuestion createQuestion s).1.questions.length = s.questions.length + 1 ∧
      (handleAddQuestion createQuestion s).1.questions.take s.questions.length = s.questions ∧
      (handleAddQuestion createQuestion s).1.newQuestion = "" ∧
      (handleAddQuestion createQuestion s).1.newOptions = ["", "", "", ""] ∧
      (handleAddQuestion createQuestion s).1.correctOptions =
        [some false, some false, some false, some false] ∧
      (handleAddQuestion createQuestion s).1.selectedExamId = s.selectedExamId := by
  rw [handleAddQuestion_valid createQuestion s hq ho, hres]
  simp

theorem addQuestion_success_appends_and_resets_witness :
    (jsTrim onePending.newQuestion ≠ "" ∧
      (∀ o ∈ ({ onePending with newOptions := ["6", "7", "8", "9"] } : FormState).newOptions,
        jsTrim o ≠ "") ∧
      acceptAll (newQuestionObj { onePending with newOptions := ["6", "7", "8", "9"] }) =
        .ok (JsVal.obj [("question", JsVal.str "3+3=?"), ("examId", JsVal.str "E1")])) ∧
    (handleAddQuestion acceptAll { onePending with newOptions := ["6", "7", "8", "9"] }).1.questions =
      onePending.questions ++
        [JsVal.obj [("question", JsVal.str "3+3=?"), ("examId", JsVal.str "E1")]] :=
  ⟨⟨by decide, by decide, rfl⟩,
    (addQuestion_success_appends_and_resets acceptAll
      { onePending with newOptions := ["6", "7", "8", "9"] }
      (JsVal.obj [("question", JsVal.str "3+3=?"), ("examId", JsVal.str "E1")])
      (by decide) (by decide) rfl).1⟩

/-- C3: when local validation fails or the `createQuestion` call is rejected,
`handleAddQuestion` leaves the whole form state (pending list, question text,
option texts, flags, selected exam id) as it was. -/
theorem addQuestion_failure_preserves_state
    (createQuestion : QuestionPayload → Except JsVal JsVal) (s : FormState)
    (h : (jsTrim s.newQuestion = "" ∨ ∃ o ∈ s.newOptions, jsTrim o = "") ∨
      ∃ err, createQuestion (newQuestionObj s) = .error err) :
    (handleAddQuestion createQuestion s).1 = s := by
  rcases validity_cases s with hinv | ⟨hq, ho⟩
  · rw [handleAddQuestion_invalid createQuestion s hinv]
  · rcases h with hinv | ⟨err, herr⟩
    · rw [handleAddQuestion_invalid createQuestion s hinv]
    · rw [handleAddQuestion_valid createQuestion s hq ho, herr]

theorem addQuestion_failure_preserves_state_witness :
    ((jsTrim arithmeticDraft.newQuestion = "" ∨
        ∃ o ∈ arithmeticDraft.newOptions, jsTrim o = "") ∨
      ∃ err, rejectAll (newQuestionObj arithmeticDraft) = .error err) ∧
    (handleAddQuestion rejectAll arithmeticDraft).1 = arithmeticDraft :=
  ⟨Or.inr ⟨_, rfl⟩, addQuestion_failure_preserves_state rejectAll arithmeticDraft (Or.inr ⟨_, rfl⟩)⟩

/-- C4: `handleAddQuestion` calls `createQuestion` at most once, exactly once
when local validation passes, and every call carries the entered question text,
the selected exam id, and four options whose texts are the entered option
texts and whose flags are the correctness flags, in the same order. -/
theorem addQuestion_payload
    (createQuestion : QuestionPayload → Except JsVal JsVal) (s : FormState)
    (hO : s.newOptions.length = 4) (hC : s.correctOptions.length = 4) :
    (createQuestionCalls (handleAddQuestion createQuestion s).2).length ≤ 1 ∧
      (jsTrim s.newQuestion ≠ "" → (∀ o ∈ s.newOptions, jsTrim o ≠ "") →
        (createQuestionCalls (handleAddQuestion createQuestion s).2).length = 1) ∧
      ∀ p ∈ createQuestionCalls (handleAddQuestion createQuestion s).2,
        p.question = s.newQuestion ∧ p.examId = s.selectedExamId ∧ p.options.length = 4 ∧
          p.options.map QuestionOption.optionText = s.newOptions ∧
          p.options.map QuestionOption.isCorrect = s.correctOptions := by
  have hpayload : ∀ p ∈ [newQuestionObj s],
      p.question = s.newQuestion ∧ p.examId = s.selectedExamId ∧ p.options.length = 4 ∧
        p.options.map QuestionOption.optionText = s.newOptions ∧
        p.options.map QuestionOption.isCorrect = s.correctOptions := by
    intro p hp
    rw [List.mem_singleton] at hp
    subst hp
    have htexts := mapOptions_optionText s.correctOptions s.newOptions 0
    refine ⟨rfl, rfl, ?_, htexts, ?_⟩
    · have := congrArg List.length htexts
      rw [List.length_map] at this
      exact this.trans hO
    · show (mapOptions s.correctOptions 0 s.newOptions).map QuestionOption.isCorrect = _
      rw [mapOptions_isCorrect, hO, ← hC]
      exact map_readSlot_range s.correctOptions
  rcases validity_cases s with hinv | ⟨hq, ho⟩
  · rw [handleAddQuestion_invalid createQuestion s hinv]
    refine ⟨by simp [createQuestionCalls], fun hq ho => ?_, by simp [createQuestionCalls]⟩
    rcases hinv with hq0 | ⟨o, hmem, ho0⟩
    · exact absurd hq0 hq
    · exact absurd ho0 (ho o hmem)
  · rw [createQuestionCalls_handleAddQuestion_valid createQuestion s hq ho]
    exact ⟨by simp, fun _ _ => rfl, hpayload⟩

theorem addQuestion_payload_witness :
    (arithmeticDraft.newOptions.length = 4 ∧ arithmeticDraft.correctOptions.length = 4) ∧
    createQuestionCalls (handleAddQuestion acceptAll arithmeticDraft).2 =
      [{ question := "2+2=?"
         options := [⟨"3", some false⟩, ⟨"4", some true⟩, ⟨"5", some false⟩, ⟨"6", some false⟩]
         examId := "E1" }] ∧
    (createQuestionCalls (handleAddQuestion acceptAll arithmeticDraft).2).length = 1 :=
  ⟨⟨rfl, rfl⟩, by decide,
    (addQuestion_payload acceptAll arithmeticDraft rfl rfl).2.1 (by decide) (by decide)⟩

/-- C5: with a non-empty pending list, `handleSubmitQuestions` (also when run
by a click on "Submit All") empties the pending list, resets the question
text, the four option texts and the four flags, keeps the selected exam id and
performs no `createQuestion` call. -/
theorem submitQuestions_clears_and_resets (s : FormState) (h : s.questions ≠ []) :
    submitAllClick s = handleSubmitQuestions s ∧
      (handleSubmitQuestions s).1 =
        { questions := []
          newQuestion := ""
          newOptions := ["", "", "", ""]
          correctOptions := [some false, some false, some false, some false]
          selectedExamId := s.selectedExamId } ∧
      createQuestionCalls (handleSubmitQuestions s).2 = [] ∧
      ∀ p, QEffect.createQuestion p ∉ (handleSubmitQuestions s).2 := by
  refine ⟨?_, rfl, rfl, fun p hp => ?_⟩
  · unfold submitAllClick
    rw [if_neg]
    simpa using h
  · simp [handleSubmitQuestions] at hp

theorem submitQuestions_clears_and_resets_witness :
    onePending.questions ≠ [] ∧ (submitAllClick onePending).1.questions = [] ∧
      (submitAllClick onePending).1.newQuestion = "" ∧
      (submitAllClick onePending).1.selectedExamId = "E1" :=
  ⟨by simp [onePending],
    by rw [(submitQuestions_clears_and_resets onePending (by simp [onePending])).1]; exact ⟨rfl, rfl, rfl⟩⟩

/-- C6: with an empty pending list `finalizeBatch` is a no-op.  The "Submit
All" button, the only caller of `handleSubmitQuestions`, is disabled exactly
then, so the question text, the option texts, the flags, the pending list and
the selected exam id are unchanged and no effect, in particular no
notification, is produced. -/
theorem submitAllClick_empty_list_noop (s : FormState) (h : s.questions = []) :
    submitAllClick s = (s, []) := by
  unfold submitAllClick
  rw [if_pos]
  simp [h]

theorem submitAllClick_empty_list_noop_witness :
    typedDraftNoPending.questions = [] ∧
      submitAllClick typedDraftNoPending = (typedDraftNoPending, []) :=
  ⟨rfl, submitAllClick_empty_list_noop typedDraftNoPending rfl⟩

/-! ## Default exam selection -/

theorem handleAddQuestion_selectedExamId
    (createQuestion : QuestionPayload → Except JsVal JsVal) (s : FormState) :
    (handleAddQuestion createQuestion s).1.selectedExamId = s.selectedExamId := by
  rcases validity_cases s with hinv | ⟨hq, ho⟩
  · rw [handleAddQuestion_invalid createQuestion s hinv]
  · rw [handleAddQuestion_valid createQuestion s hq ho]
    cases createQuestion (newQuestionObj s) <;> rfl

theorem submitAllClick_selectedExamId (s : FormState) :
    (submitAllClick s).1.selectedExamId = s.selectedExamId := by
  unfold submitAllClick
  split <;> rfl

theorem step_keeps_selection (s : FormState) (e : Event)
    (hsel : ∀ examId, e ≠ .selectExam examId)
    (hdata : ∀ first rest, e ≠ .examsData (some (first :: rest))) :
    (step s e).selectedExamId = s.selectedExamId := by
  cases e with
  | changeQuestion value => rfl
  | changeOption index value =>
      simp only [step]
      split <;> rfl
  | toggleCorrect index =>
      simp only [step]
      split <;> rfl
  | addQuestion createQuestion => exact handleAddQuestion_selectedExamId createQuestion s
  | submitAll => exact submitAllClick_selectedExamId s
  | selectExam examId => exact absurd rfl (hsel examId)
  | examsData d =>
      match d with
      | none => rfl
      | some [] => rfl
      | some (first :: rest) => exact absurd rfl (hdata first rest)

/-- C7, as stated, fails: after the list `[E1, E2]` has loaded and the user has
selected `E2`, a refresh that delivers `[E1, E2, E3]` sets the selection back to
the first exam `E1`. -/
theorem refresh_overrides_manual_selection :
    (run initialState
        [.examsData (some [examE1, examE2]), .selectExam "E2"]).selectedExamId = "E2" ∧
      (run initialState
        [.examsData (some [examE1, examE2]), .selectExam "E2",
          .examsData (some [examE1, examE2, examE3])]).selectedExamId = "E1" :=
  ⟨rfl, rfl⟩

/-- C7, amended: every change of the exam list to a non-empty list, the first
load and each later refresh alike, sets the selection to the first exam of the
new list whatever was selected before; a change to an unloaded or empty list
leaves the state as it is; a manual selection sets the chosen id and is kept by
every sequence of events that contains neither another selection nor a change
of the exam list to a non-empty list. -/
theorem examsData_change_selects_first_exam (s : FormState) :
    (∀ first rest, step s (.examsData (some (first :: rest))) =
        { s with selectedExamId := first.examId }) ∧
      step s (.examsData none) = s ∧ step s (.examsData (some [])) = s ∧
      (∀ examId, step s (.selectExam examId) = { s with selectedExamId := examId }) ∧
      ∀ events : List Event,
        (∀ e ∈ events, (∀ examId, e ≠ .selectExam examId) ∧
          ∀ first rest, e ≠ .examsData (some (first :: rest))) →
        (run s events).selectedExamId = s.selectedExamId := by
  refine ⟨fun _ _ => rfl, rfl, rfl, fun _ => rfl, fun events => ?_⟩
  induction events generalizing s with
  | nil => intro _; rfl
  | cons e rest ih =>
      intro h
      have he := h e (List.mem_cons_self e rest)
      have hrest := ih (step s e) (fun e' hmem => h e' (List.mem_cons_of_mem e hmem))
      show (run (step s e) rest).selectedExamId = s.selectedExamId
      rw [hrest, step_keeps_selection s e he.1 he.2]

/-! ## Exam validation schema -/

theorem examName_valid_iff (name : String) :
    examNameSchema.validate (prepareText name) = [] ↔ name ≠ "" := by
  unfold prepareText
  by_cases h : name = ""
  · simp [h, Schema.validate, examNameSchema, yupString, Schema.required]
  · simp [h, Schema.validate, examNameSchema, yupString, Schema.required]

theorem yupNumberCast_text_empty (h : Host) : yupNumberCast h (.text "") = .nan := by
  simp [yupNumberCast]

theorem isInteger_finite_iff (q : ℚ) :
    (JsNum.finite q).isInteger = true ↔ ∃ n : ℤ, q = n := by
  simp only [JsNum.isInteger, decide_eq_true_eq]
  constructor
  · intro hden
    exact ⟨q.num, ((Rat.den_eq_one_iff q).1 hden).symm⟩
  · rintro ⟨n, rfl⟩
    exact Rat.den_intCast n

theorem totalQuestions_valid_iff (h : Host) (v : FieldValue) :
    (totalQuestionsSchema h).validate (prepareField v) = [] ↔
      ∃ n : ℤ, 0 < n ∧ yupNumberCast h v = .finite n := by
  unfold prepareField
  by_cases hv : v = .text ""
  · subst hv
    simp [Schema.validate, totalQuestionsSchema, Schema.required, yupNumberCast_text_empty]
  · rw [if_neg hv]
    cases hc : yupNumberCast h v with
    | nan =>
        simp [Schema.validate, totalQuestionsSchema, Schema.required, Schema.positive,
          Schema.integer, Schema.typeError, yupNumber, hc]
    | infinity negative =>
        simp [Schema.validate, totalQuestionsSchema, Schema.required, Schema.positive,
          Schema.integer, Schema.typeError, yupNumber, hc, JsNum.isInteger, List.filter]
    | finite q =>
        have hint := isInteger_finite_iff q
        by_cases hi : (JsNum.finite q).isInteger = true
        · obtain ⟨n, rfl⟩ := hint.1 hi
          by_cases hpos : (0 : ℚ) < (n : ℚ)
          · simp [Schema.validate, totalQuestionsSchema, Schema.required, Schema.positive,
              Schema.integer, Schema.typeError, yupNumber, hc, List.filter, hi, JsNum.gt, hpos]
            exact_mod_cast hpos
          · simp [Schema.validate, totalQuestionsSchema, Schema.required, Schema.positive,
              Schema.integer, Schema.typeError, yupNumber, hc, List.filter, hi, JsNum.gt, hpos]
            exact_mod_cast not_lt.mp hpos
        · simp [Schema.validate, totalQuestionsSchema, Schema.required, Schema.positive,
            Schema.integer, Schema.typeError, yupNumber, hc, List.filter, hi]
          intro m _ hmn
          exact hi (hint.2 ⟨m, hmn⟩)

theorem duration_valid_iff (h : Host) (v : FieldValue) :
    (durationSchema h).validate (prepareField v) = [] ↔
      ∃ n : ℤ, 1 ≤ n ∧ yupNumberCast h v = .finite n := by
  unfold prepareField
  by_cases hv : v = .text ""
  · subst hv
    simp [Schema.validate, durationSchema, Schema.required, yupNumberCast_text_empty]
  · rw [if_neg hv]
    cases hc : yupNumberCast h v with
    | nan =>
        simp [Schema.validate, durationSchema, Schema.required, Schema.min,
          Schema.integer, Schema.typeError, yupNumber, hc]
    | infinity negative =>
        simp [Schema.validate, durationSchema, Schema.required, Schema.min,
          Schema.integer, Schema.typeError, yupNumber, hc, JsNum.isInteger, List.filter]
    | finite q =>
        have hint := isInteger_finite_iff q
        by_cases hi : (JsNum.finite q).isInteger = true
        · obtain ⟨n, rfl⟩ := hint.1 hi
          by_cases hmin : (1 : ℚ) ≤ (n : ℚ)
          · simp [Schema.validate, durationSchema, Schema.required, Schema.min,
              Schema.integer, Schema.typeError, yupNumber, hc, List.filter, hi, JsNum.ge, hmin]
            exact_mod_cast hmin
          · simp [Schema.validate, durationSchema, Schema.required, Schema.min,
              Schema.integer, Schema.typeError, yupNumber, hc, List.filter, hi, JsNum.ge, hmin]
            exact_mod_cast not_le.mp hmin
        · simp [Schema.validate, durationSchema, Schema.required, Schema.min,
            Schema.integer, Schema.typeError, yupNumber, hc, List.filter, hi]
          intro m _ hmn
          exact hi (hint.2 ⟨m, hmn⟩)

theorem date_valid_iff (h : Host) (message : String) (raw : String) :
    ((yupDate h).required message).validate (prepareText raw) = [] ↔
      raw ≠ "" ∧ (h.parseDate raw).isSome = true := by
  unfold prepareText
  by_cases hr : raw = ""
  · simp [hr, Schema.validate, Schema.required]
  · rw [if_neg hr]
    cases hp : h.parseDate raw <;>
      simp [Schema.validate, Schema.required, yupDate, hp, hr]

theorem examValidationSchema_nil_iff (h : Host) (d : ExamDraft) :
    examValidationSchema h d = [] ↔
      d.examName ≠ "" ∧
      (∃ n : ℤ, 0 < n ∧ yupNumberCast h d.totalQuestions = .finite n) ∧
      (∃ n : ℤ, 1 ≤ n ∧ yupNumberCast h d.duration = .finite n) ∧
      (d.liveDate ≠ "" ∧ (h.parseDate d.liveDate).isSome = true) ∧
      (d.deadDate ≠ "" ∧ (h.parseDate d.deadDate).isSome = true) := by
  unfold examValidationSchema
  simp only [List.append_eq_nil, List.map_eq_nil_iff]
  rw [examName_valid_iff, totalQuestions_valid_iff, duration_valid_iff]
  unfold liveDateSchema deadDateSchema
  rw [date_valid_iff, date_valid_iff]
  simp only [and_assoc]

theorem handleSubmit_ok (createExam : ExamDraft → Except JsVal JsVal) (d : ExamDraft)
    (res : JsVal) (hres : createExam d = .ok res) :
    handleSubmit createExam d =
      (initialExamValues, [.createExam d, .toastSuccess "Exam Created successfully"]) := by
  unfold handleSubmit
  rw [hres]

theorem handleSubmit_error (createExam : ExamDraft → Except JsVal JsVal) (d : ExamDraft)
    (err : JsVal) (herr : createExam d = .error err) :
    (handleSubmit createExam d).1 = d ∧
      createExamCalls (handleSubmit createExam d).2 = [d] := by
  unfold handleSubmit
  rw [herr]
  dsimp only
  cases errorContent err <;> exact ⟨rfl, rfl⟩

theorem createExamCalls_handleSubmit (createExam : ExamDraft → Except JsVal JsVal)
    (d : ExamDraft) : createExamCalls (handleSubmit createExam d).2 = [d] := by
  cases hc : createExam d with
  | ok res => rw [handleSubmit_ok createExam d res hc]; rfl
  | error err => exact (handleSubmit_error createExam d err hc).2

theorem createExamCalls_formikSubmit_invalid (h : Host)
    (createExam : ExamDraft → Except JsVal JsVal) (d : ExamDraft)
    (hv : examValidationSchema h d ≠ []) :
    createExamCalls (formikSubmit h createExam d).2 = [] := by
  unfold formikSubmit
  rw [if_neg (by simpa using hv)]
  rfl

theorem formikSubmit_valid (h : Host) (createExam : ExamDraft → Except JsVal JsVal)
    (d : ExamDraft) (hv : examValidationSchema h d = []) :
    formikSubmit h createExam d = handleSubmit createExam d := by
  unfold formikSubmit
  rw [if_pos (by simp [hv])]

/-! ## Claims on `CreateExamPage` -/

theorem stringToNumber_empty : stringToNumber "" = .finite 0 := by decide

theorem yupNumberCast_ecmaHost (parseDate : String → Option Int) (v : FieldValue) (k : ℤ)
    (hk : k ≠ 0) :
    yupNumberCast (ecmaHost parseDate) v = .finite k ↔
      numberValue (withoutWhiteSpace v) = .finite k := by
  cases v with
  | number n => rfl
  | text s =>
      simp only [yupNumberCast, withoutWhiteSpace, numberValue, ecmaHost]
      by_cases hp : (⟨s.data.filter (fun c => !isJsWhiteSpace c)⟩ : String) = ""
      · rw [if_pos hp, hp, stringToNumber_empty]
        constructor
        · intro hnan
          cases hnan
        · intro hzero
          have hq : (0 : ℚ) = (k : ℚ) := JsNum.finite.inj hzero
          exact absurd (by exact_mod_cast hq.symm) hk
      · rw [if_neg hp]

theorem examValidationSchema_ecmaHost_nil_iff (parseDate : String → Option Int)
    (d : ExamDraft) :
    examValidationSchema (ecmaHost parseDate) d = [] ↔
      d.examName ≠ "" ∧
      (∃ k : ℤ, 0 < k ∧ numberValue (withoutWhiteSpace d.totalQuestions) = .finite k) ∧
      (∃ k : ℤ, 1 ≤ k ∧ numberValue (withoutWhiteSpace d.duration) = .finite k) ∧
      (d.liveDate ≠ "" ∧ (parseDate d.liveDate).isSome = true) ∧
      (d.deadDate ≠ "" ∧ (parseDate d.deadDate).isSome = true) := by
  rw [examValidationSchema_nil_iff]
  have htotal : (∃ k : ℤ, 0 < k ∧
        yupNumberCast (ecmaHost parseDate) d.totalQuestions = .finite k) ↔
      ∃ k : ℤ, 0 < k ∧ numberValue (withoutWhiteSpace d.totalQuestions) = .finite k := by
    constructor
    · rintro ⟨k, hk, hcast⟩
      exact ⟨k, hk, (yupNumberCast_ecmaHost parseDate _ k (by omega)).1 hcast⟩
    · rintro ⟨k, hk, hvalue⟩
      exact ⟨k, hk, (yupNumberCast_ecmaHost parseDate _ k (by omega)).2 hvalue⟩
  have hduration : (∃ k : ℤ, 1 ≤ k ∧
        yupNumberCast (ecmaHost parseDate) d.duration = .finite k) ↔
      ∃ k : ℤ, 1 ≤ k ∧ numberValue (withoutWhiteSpace d.duration) = .finite k := by
    constructor
    · rintro ⟨k, hk, hcast⟩
      exact ⟨k, hk, (yupNumberCast_ecmaHost parseDate _ k (by omega)).1 hcast⟩
    · rintro ⟨k, hk, hvalue⟩
      exact ⟨k, hk, (yupNumberCast_ecmaHost parseDate _ k (by omega)).2 hvalue⟩
  rw [htotal, hduration]
  rfl

/-- Failures reported by the schema for drafts that differ from the scenario
"Midterm" in one numeric field: a text that is no number, a fraction, zero, a
negative fraction, an empty field, and a duration below one minute. -/
theorem examValidationSchema_reports :
    examValidationSchema (ecmaHost sampleHost.parseDate)
        { typedMidtermDraft with totalQuestions := .text "abc" } =
      [("totalQuestions", "Total Number of Questions must be a number")] ∧
    examValidationSchema (ecmaHost sampleHost.parseDate)
        { typedMidtermDraft with totalQuestions := .text "1.5" } =
      [("totalQuestions", "Total Number of Questions must be an integer")] ∧
    examValidationSchema (ecmaHost sampleHost.parseDate)
        { typedMidtermDraft with totalQuestions := .text "0" } =
      [("totalQuestions", "Total Number of Questions must be positive")] ∧
    examValidationSchema (ecmaHost sampleHost.parseDate)
        { typedMidtermDraft with totalQuestions := .text "-2.5" } =
      [("totalQuestions", "Total Number of Questions must be an integer"),
        ("totalQuestions", "Total Number of Questions must be positive")] ∧
    examValidationSchema (ecmaHost sampleHost.parseDate)
        { typedMidtermDraft with totalQuestions := .text "" } =
      [("totalQuestions", "Total Number of Questions is required")] ∧
    examValidationSchema (ecmaHost sampleHost.parseDate)
        { typedMidtermDraft with duration := .text "0" } =
      [("duration", "Exam Duration must be at least 1 minute")] ∧
    examValidationSchema (ecmaHost sampleHost.parseDate)
        { typedMidtermDraft with totalQuestions := .text "1e1", duration := .text "0x3C" } =
      [] := by
  refine ⟨?_, ?_, ?_, ?_, ?_, ?_, ?_⟩ <;> decide

/-- C8, as stated, fails: with `1 0` typed as the number of questions the schema
reports no failure, because the cast of `yup.number()` removes the inner space
and reads `10`, although `1 0` is not numeric (`Number("1 0")` is `NaN`). -/
theorem examValidationSchema_accepts_spaced_number :
    examValidationSchema (ecmaHost sampleHost.parseDate) spacedDraft = [] ∧
      spacedDraft.totalQuestions = .text "1 0" ∧
      numberValue spacedDraft.totalQuestions = .nan ∧
      ¬ ∃ k : ℤ, 0 < k ∧ numberValue spacedDraft.totalQuestions = .finite k := by
  refine ⟨by decide, rfl, by decide, ?_⟩
  rintro ⟨k, _, hk⟩
  have hnan : numberValue spacedDraft.totalQuestions = .nan := by decide
  rw [hnan] at hk
  cases hk

/-- C8, amended: the schema reports no failure exactly when the exam name is
non-empty, `totalQuestions`, a number or a typed text read with all its white
space removed, is numerically an integer greater than 0, `duration`, read the
same way, is numerically an integer at least 1, and both dates are present and
parse; acceptance does not depend on the order of the two dates (exchanging
them keeps it); a submission calls `createExam` only for an accepted draft,
hence never when one of the five fields is empty. -/
theorem examValidationSchema_accepts_characterisation (parseDate : String → Option Int)
    (d : ExamDraft) :
    (examValidationSchema (ecmaHost parseDate) d = [] ↔
        d.examName ≠ "" ∧
        (∃ k : ℤ, 0 < k ∧ numberValue (withoutWhiteSpace d.totalQuestions) = .finite k) ∧
        (∃ k : ℤ, 1 ≤ k ∧ numberValue (withoutWhiteSpace d.duration) = .finite k) ∧
        (d.liveDate ≠ "" ∧ (parseDate d.liveDate).isSome = true) ∧
        (d.deadDate ≠ "" ∧ (parseDate d.deadDate).isSome = true)) ∧
      (examValidationSchema (ecmaHost parseDate) d = [] →
        examValidationSchema (ecmaHost parseDate)
          { d with liveDate := d.deadDate, deadDate := d.liveDate } = []) ∧
      (∀ createExam : ExamDraft → Except JsVal JsVal,
        createExamCalls (formikSubmit (ecmaHost parseDate) createExam d).2 ≠ [] →
          examValidationSchema (ecmaHost parseDate) d = []) ∧
      ((d.examName = "" ∨ d.totalQuestions = .text "" ∨ d.duration = .text "" ∨
          d.liveDate = "" ∨ d.deadDate = "") →
        ∀ createExam : ExamDraft → Except JsVal JsVal,
          createExamCalls (formikSubmit (ecmaHost parseDate) createExam d).2 = []) := by
  refine ⟨examValidationSchema_ecmaHost_nil_iff parseDate d, ?_, ?_, ?_⟩
  · intro hv
    rw [examValidationSchema_ecmaHost_nil_iff] at hv ⊢
    exact ⟨hv.1, hv.2.1, hv.2.2.1, hv.2.2.2.2, hv.2.2.2.1⟩
  · intro createExam hcalls
    by_contra hv
    exact hcalls (createExamCalls_formikSubmit_invalid _ createExam d hv)
  · intro hempty createExam
    apply createExamCalls_formikSubmit_invalid
    rw [Ne, examValidationSchema_nil_iff]
    rintro ⟨hname, ⟨n, _, htotal⟩, ⟨m, _, hduration⟩, ⟨hlive, _⟩, ⟨hdead, _⟩⟩
    rcases hempty with he | he | he | he | he
    · exact hname he
    · rw [he, yupNumberCast_text_empty] at htotal
      cases htotal
    · rw [he, yupNumberCast_text_empty] at hduration
      cases hduration
    · exact hlive he
    · exact hdead he

theorem examValidationSchema_accepts_characterisation_witness :
    examValidationSchema (ecmaHost sampleHost.parseDate) typedMidtermDraft = [] :=
  (examValidationSchema_accepts_characterisation sampleHost.parseDate typedMidtermDraft).1.2
    ⟨by decide, ⟨10, by decide, by decide⟩, ⟨60, by decide, by decide⟩,
      ⟨by decide, by decide⟩, ⟨by decide, by decide⟩⟩

/-- C9: for a draft accepted by the schema, the submission runs `handleSubmit`,
which calls `createExam` exactly once with the draft as entered; afterwards the
draft is the empty initial state exactly when `createExam` succeeded, and it is
the draft as entered when `createExam` failed. -/
theorem handleSubmit_resets_iff_success (h : Host)
    (createExam : ExamDraft → Except JsVal JsVal) (d : ExamDraft)
    (hv : examValidationSchema h d = []) :
    formikSubmit h createExam d = handleSubmit createExam d ∧
      createExamCalls (handleSubmit createExam d).2 = [d] ∧
      ((handleSubmit createExam d).1 = initialExamValues ↔ ∃ res, createExam d = .ok res) ∧
      ((∃ err, createExam d = .error err) → (handleSubmit createExam d).1 = d) := by
  have hne : d ≠ initialExamValues := by
    intro heq
    have hname := ((examValidationSchema_nil_iff h d).1 hv).1
    rw [heq] at hname
    exact hname rfl
  refine ⟨formikSubmit_valid h createExam d hv, createExamCalls_handleSubmit createExam d, ?_, ?_⟩
  · cases hc : createExam d with
    | ok res =>
        rw [handleSubmit_ok createExam d res hc]
        exact ⟨fun _ => ⟨res, rfl⟩, fun _ => rfl⟩
    | error err =>
        rw [(handleSubmit_error createExam d err hc).1]
        constructor
        · intro heq
          exact absurd heq hne
        · rintro ⟨res, hres⟩
          cases hres
  · rintro ⟨err, herr⟩
    exact (handleSubmit_error createExam d err herr).1

theorem handleSubmit_resets_iff_success_witness :
    examValidationSchema sampleHost midtermDraft = [] ∧
      createExamCalls (handleSubmit (fun _ => .ok JsVal.null) midtermDraft).2 = [midtermDraft] ∧
      (handleSubmit (fun _ => .ok JsVal.null) midtermDraft).1 = initialExamValues :=
  ⟨by decide,
    (handleSubmit_resets_iff_success sampleHost (fun _ => .ok JsVal.null) midtermDraft
      (by decide)).2.1,
    ((handleSubmit_resets_iff_success sampleHost (fun _ => .ok JsVal.null) midtermDraft
      (by decide)).2.2.1).2 ⟨JsVal.null, rfl⟩⟩

/-- C10 at a rejection value without `message` and without `error`: the
notification is emitted with `undefined` instead of a message text, while a
rejection value with a `message` shows that message. -/
theorem handleSubmit_rejection_without_message_shows_undefined :
    errorContent errorWithoutMessage = .ok JsVal.undefined ∧
      (handleSubmit (fun _ => .error errorWithoutMessage) midtermDraft).2 =
        [.createExam midtermDraft, .toastError JsVal.undefined] ∧
      (handleSubmit (fun _ => .error errorWithMessage) midtermDraft).2 =
        [.createExam midtermDraft, .toastError (JsVal.str "Not Authorized, no token")] :=
  ⟨rfl, rfl, rfl⟩

/-! ## Cardinality of the option arrays -/

theorem fourOptions_initialState : FourOptions initialState := by
  refine ⟨rfl, rfl, ?_⟩
  intro slot hslot
  simp [initialState] at hslot
  rw [hslot]
  rfl

theorem fourOptions_reset (questions : List JsVal) (s : FormState) :
    FourOptions
      { s with
          questions := questions
          newQuestion := ""
          newOptions := ["", "", "", ""]
          correctOptions := [some false, some false, some false, some false] } := by
  refine ⟨rfl, rfl, ?_⟩
  intro slot hslot
  simp at hslot
  rw [hslot]
  rfl

theorem writeSlot_in_range (xs : List (Option Bool)) (index : Nat) (v : Bool)
    (h : index < xs.length) : writeSlot xs index v = xs.set index (some v) := by
  simp [writeSlot, h]

theorem fourOptions_handleOptionChange (s : FormState) (index : Nat) (h : FourOptions s)
    (hindex : index < s.newOptions.length) : FourOptions (handleOptionChange index s) := by
  obtain ⟨htexts, hflags, hsome⟩ := h
  have hrange : index < s.correctOptions.length := by omega
  unfold handleOptionChange
  refine ⟨htexts, ?_, ?_⟩
  · show (writeSlot s.correctOptions index _).length = 4
    rw [writeSlot_in_range _ _ _ hrange, List.length_set]
    exact hflags
  · intro slot hslot
    change slot ∈ writeSlot s.correctOptions index _ at hslot
    rw [writeSlot_in_range _ _ _ hrange] at hslot
    rcases List.mem_or_eq_of_mem_set hslot with hold | hnew
    · exact hsome slot hold
    · rw [hnew]
      rfl

theorem fourOptions_handleAddQuestion
    (createQuestion : QuestionPayload → Except JsVal JsVal) (s : FormState)
    (h : FourOptions s) : FourOptions (handleAddQuestion createQuestion s).1 := by
  rcases validity_cases s with hinv | ⟨hq, ho⟩
  · rw [handleAddQuestion_invalid createQuestion s hinv]
    exact h
  · rw [handleAddQuestion_valid createQuestion s hq ho]
    cases createQuestion (newQuestionObj s) with
    | ok res => exact fourOptions_reset (s.questions ++ [res]) s
    | error err => exact h

theorem fourOptions_handleSubmitQuestions (s : FormState) :
    FourOptions (handleSubmitQuestions s).1 :=
  fourOptions_reset [] s

theorem fourOptions_step (s : FormState) (e : Event) (h : FourOptions s) :
    FourOptions (step s e) := by
  cases e with
  | changeQuestion value => exact h
  | changeOption index value =>
      simp only [step]
      split
      · refine ⟨?_, h.2.1, h.2.2⟩
        show (s.newOptions.set index value).length = 4
        rw [List.length_set]
        exact h.1
      · exact h
  | toggleCorrect index =>
      simp only [step]
      split
      · next hindex => exact fourOptions_handleOptionChange s index h hindex
      · exact h
  | addQuestion createQuestion => exact fourOptions_handleAddQuestion createQuestion s h
  | submitAll =>
      simp only [step, submitAllClick]
      split
      · exact h
      · exact fourOptions_handleSubmitQuestions s
  | selectExam examId => exact h
  | examsData d =>
      match d with
      | none => exact h
      | some [] => exact h
      | some (first :: rest) => exact h

theorem fourOptions_run (events : List Event) (s : FormState) (h : FourOptions s) :
    FourOptions (run s events) := by
  induction events generalizing s with
  | nil => exact h
  | cons e rest ih => exact ih (step s e) (fourOptions_step s e h)

theorem set_of_getElem? {α : Type} (xs : List α) (index : Nat) (a : α)
    (h : xs[index]? = some a) : xs.set index a = xs := by
  apply List.ext_getElem?
  intro j
  by_cases hj : index = j
  · subst hj
    rw [List.getElem?_set_self (List.getElem?_eq_some.1 h).1, h]
  · rw [List.getElem?_set_ne hj]

theorem flag_slot_of_fourOptions (s : FormState) (index : Nat) (h : FourOptions s)
    (hindex : index < 4) : ∃ b : Bool, s.correctOptions[index]? = some (some b) := by
  obtain ⟨_, hflags, hsome⟩ := h
  have hrange : index < s.correctOptions.length := by omega
  have hmem := hsome _ (List.getElem_mem hrange)
  obtain ⟨b, hb⟩ := Option.isSome_iff_exists.1 hmem
  exact ⟨b, by rw [List.getElem?_eq_getElem hrange, hb]⟩

theorem step_changeOption (s : FormState) (index : Nat) (value : String)
    (h : FourOptions s) (hindex : index < 4) :
    step s (.changeOption index value) =
      { s with newOptions := s.newOptions.set index value } := by
  have hrange : index < s.newOptions.length := by rw [h.1]; exact hindex
  simp only [step, if_pos hrange, changeOptionText]

theorem step_toggleCorrect (s : FormState) (index : Nat) (b : Bool)
    (h : FourOptions s) (hindex : index < 4)
    (hb : s.correctOptions[index]? = some (some b)) :
    step s (.toggleCorrect index) =
      { s with correctOptions := s.correctOptions.set index (some (!b)) } := by
  have hrange : index < s.newOptions.length := by rw [h.1]; exact hindex
  have hflag : index < s.correctOptions.length := by rw [h.2.1]; exact hindex
  simp only [step, if_pos hrange, handleOptionChange, writeSlot_in_range _ _ _ hflag, readSlot,
    List.get?_eq_getElem?, hb, Option.join, jsNot]
  rfl

theorem toggle_twice (s : FormState) (index : Nat) (h : FourOptions s) (hindex : index < 4) :
    step (step s (.toggleCorrect index)) (.toggleCorrect index) = s := by
  obtain ⟨b, hb⟩ := flag_slot_of_fourOptions s index h hindex
  have hflag : index < s.correctOptions.length := by rw [h.2.1]; exact hindex
  have hfirst := step_toggleCorrect s index b h hindex hb
  have hinv := fourOptions_step s (.toggleCorrect index) h
  rw [hfirst] at hinv ⊢
  have hb2 : ({ s with correctOptions := s.correctOptions.set index (some (!b)) } :
      FormState).correctOptions[index]? = some (some (!b)) :=
    List.getElem?_set_self hflag
  rw [step_toggleCorrect _ index (!b) hinv hindex hb2]
  show ({ s with correctOptions :=
    (s.correctOptions.set index (some (!b))).set index (some (!(!b))) } : FormState) = s
  rw [List.set_set, Bool.not_not, set_of_getElem? _ _ _ hb]

/-- C11: in every state reached from the initial state by a sequence of events
(edits of the question and option texts, toggles of a correctness flag, adding a
question with either outcome, "Submit All", exam selection, refreshes of the
exam list) there are exactly four option texts and four correctness flags, each
flag a boolean; editing the text of option `i` sets entry `i` of the option
texts, keeps every other entry and the flags; toggling option `i` negates entry
`i` of the flags, keeps every other entry and the option texts; and toggling
the same option twice restores the state.  The handler `handleSubmitQuestions`
run directly on such a state also leaves four entries in each array. -/
theorem reachable_states_have_four_options (events : List Event) :
    (run initialState events).newOptions.length = 4 ∧
      (run initialState events).correctOptions.length = 4 ∧
      (∀ slot ∈ (run initialState events).correctOptions, slot.isSome = true) ∧
      (∀ (i : Nat) (value : String), i < 4 →
        (step (run initialState events) (.changeOption i value)).newOptions.length = 4 ∧
        (step (run initialState events) (.changeOption i value)).newOptions[i]? = some value ∧
        (∀ j, j ≠ i →
          (step (run initialState events) (.changeOption i value)).newOptions[j]? =
            (run initialState events).newOptions[j]?) ∧
        (step (run initialState events) (.changeOption i value)).correctOptions =
          (run initialState events).correctOptions) ∧
      (∀ i : Nat, i < 4 →
        (step (run initialState events) (.toggleCorrect i)).correctOptions.length = 4 ∧
        (∃ b : Bool, (run initialState events).correctOptions[i]? = some (some b) ∧
          (step (run initialState events) (.toggleCorrect i)).correctOptions[i]? =
            some (some (!b))) ∧
        (∀ j, j ≠ i →
          (step (run initialState events) (.toggleCorrect i)).correctOptions[j]? =
            (run initialState events).correctOptions[j]?) ∧
        (step (run initialState events) (.toggleCorrect i)).newOptions =
          (run initialState events).newOptions ∧
        step (step (run initialState events) (.toggleCorrect i)) (.toggleCorrect i) =
          run initialState events) ∧
      (handleSubmitQuestions (run initialState events)).1.newOptions.length = 4 ∧
      (handleSubmitQuestions (run initialState events)).1.correctOptions.length = 4 := by
  have h := fourOptions_run events initialState fourOptions_initialState
  refine ⟨h.1, h.2.1, h.2.2, fun i value hi => ?_, fun i hi => ?_, rfl, rfl⟩
  · have hrange : i < (run initialState events).newOptions.length := by rw [h.1]; exact hi
    rw [step_changeOption _ i value h hi]
    refine ⟨?_, List.getElem?_set_self hrange, fun j hj => List.getElem?_set_ne (Ne.symm hj), rfl⟩
    show ((run initialState events).newOptions.set i value).length = 4
    rw [List.length_set]
    exact h.1
  · obtain ⟨b, hb⟩ := flag_slot_of_fourOptions _ i h hi
    have hflag : i < (run initialState events).correctOptions.length := by rw [h.2.1]; exact hi
    refine ⟨(fourOptions_step _ (.toggleCorrect i) h).2.1, ⟨b, hb, ?_⟩, fun j hj => ?_, ?_,
      toggle_twice _ i h hi⟩
    · rw [step_toggleCorrect _ i b h hi hb]
      exact List.getElem?_set_self hflag
    · rw [step_toggleCorrect _ i b h hi hb]
      exact List.getElem?_set_ne (Ne.symm hj)
    · rw [step_toggleCorrect _ i b h hi hb]

end ProctAi
